import Mathlib

/-!
# FileCopy: a shallow embedding of the copy engine

The development embeds `FileCopy.h` / `FileCopy.cpp` as pure Lean functions and
proves properties of the embedded code.

Modelling conventions
* A path is the list of its components.  Paths handed to the engine are absolute;
  the file system has no symbolic links, so `weakly_canonical` is lexical
  normalisation and `equivalent` is equality of normalised paths.
* The file system is an association list from normalised paths to nodes.  The
  root directory always exists.
* The engine object is the record `FileCopy`; the file system it acts on is
  carried next to it in `World`.
* Mutexes are not modelled: every critical section is an atomic state update.
  A worker thread is modelled as one atomic application of `copyFiletoFile`
  that takes place at some point chosen by a `Schedule` between the creation of
  the thread and its `join`.  Calls of `cancelCopy` made by the caller on
  another thread are placed by the same `Schedule`.
* A loop of the source that may spin for ever carries a fuel argument and
  returns `none` when the fuel runs out.
-/

namespace MyFileCopyLib

/-! ## Paths -/

abbrev Byte := Nat

abbrev Path := List String

namespace stdfs

/-- Lexical normalisation of an absolute path: empty and `.` components vanish and
`..` removes the component before it (the parent of the root is the root). -/
def lexically_normal (p : Path) : Path :=
  p.foldl
    (fun acc c =>
      if c = "" ∨ c = "." then acc
      else if c = ".." then acc.dropLast
      else acc ++ [c])
    []

/-- On a file system without symbolic links `weakly_canonical` of an absolute path
is its lexical normal form. -/
def weakly_canonical (p : Path) : Path := lexically_normal p

/-- Counterpart of `std::mismatch` on two component sequences: the two remainders
from the first position at which the paths differ. -/
def mismatch : Path → Path → Path × Path
  | a :: as, b :: bs => if a = b then mismatch as bs else (a :: as, b :: bs)
  | as, bs => (as, bs)

/-- Counterpart of `path::lexically_relative` for two paths with the same root.  The
empty list is the empty path. -/
def lexically_relative (p base : Path) : Path :=
  let ab := mismatch p base
  let a := ab.1
  let b := ab.2
  if a = [] ∧ b = [] then ["."]
  else
    let names := (b.filter (fun c => decide (c ≠ "." ∧ c ≠ ".." ∧ c ≠ ""))).length
    let dotdots := (b.filter (fun c => decide (c = ".."))).length
    if names < dotdots then []
    else if names = dotdots ∧ (a = [] ∨ a.head? = some "") then ["."]
    else List.replicate (names - dotdots) ".." ++ a

/-- Counterpart of `std::filesystem::relative(p, base)`. -/
def relative (p base : Path) : Path :=
  lexically_relative (weakly_canonical p) (weakly_canonical base)

/-- Counterpart of `path::filename`: the last component, as a path of at most one
component. -/
def filename (p : Path) : Path :=
  match p.getLast? with
  | some c => [c]
  | none => []

/-- Counterpart of `path::parent_path`. -/
def parent_path (p : Path) : Path := p.dropLast

/-- Counterpart of `path::string` for a relative path. -/
def string (p : Path) : String := String.intercalate "/" p

/-- The test `s.find(needle) == 0`: the needle occurs at position 0 of `s`. -/
def found_at_0 (needle s : String) : Bool := needle.toList.isPrefixOf s.toList

/-! ## File system -/

/-- A file-system node: a directory, or a file with its bytes.  `regular = false`
marks a file that is neither regular nor a directory (device, pipe, socket). -/
inductive Node where
  | directory : Node
  | file (regular : Bool) (content : List Byte) : Node
  deriving DecidableEq, Repr

abbrev FS := List (Path × Node)

/-- First node stored under a normalised path. -/
def find : FS → Path → Option Node
  | [], _ => none
  | (k, n) :: rest, q => if k = q then some n else find rest q

/-- Remove every binding of a normalised path. -/
def erase (disk : FS) (q : Path) : FS := disk.filter (fun e => decide (e.1 ≠ q))

/-- Bind a normalised path to a node, replacing what was there. -/
def insert (disk : FS) (q : Path) (n : Node) : FS := (q, n) :: erase disk q

/-- Counterpart of `status`: what a path resolves to. -/
def status (disk : FS) (p : Path) : Option Node :=
  if lexically_normal p = [] then some Node.directory else find disk (lexically_normal p)

def path_exists (disk : FS) (p : Path) : Bool := (status disk p).isSome

def is_directory (disk : FS) (p : Path) : Bool :=
  match status disk p with
  | some Node.directory => true
  | _ => false

def is_regular_file (disk : FS) (p : Path) : Bool :=
  match status disk p with
  | some (Node.file true _) => true
  | _ => false

def is_other (disk : FS) (p : Path) : Bool :=
  match status disk p with
  | some (Node.file false _) => true
  | _ => false

/-- Counterpart of `equivalent` for two existing paths. -/
def equivalent (p q : Path) : Bool := decide (lexically_normal p = lexically_normal q)

/-- Whether `k` lies strictly beneath the directory path `q`. -/
def beneath (q k : Path) : Bool := decide (q.length < k.length ∧ k.take q.length = q)

/-- Whether `k` is an immediate child of the directory path `q`. -/
def child_of (q k : Path) : Bool := decide (k.length = q.length + 1 ∧ k.take q.length = q)

/-- Create the directories `done/c₁`, `done/c₁/c₂`, ... in turn.  `none` is a
`filesystem_error`: a component exists and is not a directory. -/
def create_directories_from (disk : FS) (done : Path) : List String → Option FS
  | [] => some disk
  | c :: rest =>
    match find disk (done ++ [c]) with
    | some Node.directory => create_directories_from disk (done ++ [c]) rest
    | some (Node.file _ _) => none
    | none => create_directories_from ((done ++ [c], Node.directory) :: disk) (done ++ [c]) rest

/-- Counterpart of `create_directories`; `none` is a thrown `filesystem_error`. -/
def create_directories (disk : FS) (p : Path) : Option FS :=
  create_directories_from disk [] (lexically_normal p)

/-- Counterpart of `remove`; `none` is a thrown `filesystem_error` (a directory that
is not empty). -/
def remove (disk : FS) (p : Path) : Option FS :=
  match find disk (lexically_normal p) with
  | none => some disk
  | some Node.directory =>
    if disk.any (fun e => beneath (lexically_normal p) e.1) then none
    else some (erase disk (lexically_normal p))
  | some (Node.file _ _) => some (erase disk (lexically_normal p))

/-- Counterpart of `directory_iterator`: the immediate children of a directory;
`none` is the `filesystem_error` thrown when the path is not a directory. -/
def directory_iterator (disk : FS) (p : Path) : Option (List Path) :=
  if is_directory disk p then
    some ((disk.filter (fun e => child_of (lexically_normal p) e.1)).map (fun e => e.1))
  else none

/-- Counterpart of `recursive_directory_iterator`: every entry beneath a
directory, in the order in which the file system lists them.  The entries are those
present when the iteration starts. -/
def recursive_directory_iterator (disk : FS) (p : Path) : List Path :=
  (disk.filter (fun e => beneath (lexically_normal p) e.1)).map (fun e => e.1)

/-! ## Streams -/

/-- An input file stream: the bytes not yet read and the state tested by
`while (src)`. -/
structure IStream where
  rest : List Byte
  good : Bool
  deriving DecidableEq, Repr

/-- Opening `std::ifstream src(source, std::ios::binary)`. -/
def ifstream_open (disk : FS) (p : Path) : IStream :=
  match status disk p with
  | some (Node.file _ content) => { rest := content, good := true }
  | _ => { rest := [], good := false }

/-- Counterpart of `src.read(buffer.data(), n)`: the stream afterwards and the
`src.gcount()` bytes placed in the buffer.  A short read sets `eofbit | failbit`. -/
def IStream.read (s : IStream) (n : Nat) : IStream × List Byte :=
  if s.good then
    if n ≤ s.rest.length then ({ rest := s.rest.drop n, good := true }, s.rest.take n)
    else ({ rest := [], good := false }, s.rest)
  else (s, [])

/-- The effect of `std::ofstream dest(destination, std::ios::binary)` followed by
the writes of `content`: the file is created or truncated and then holds
`content`; when it cannot be opened nothing changes. -/
def ofstream_write (disk : FS) (p : Path) (content : List Byte) : FS :=
  match status disk p with
  | some Node.directory => disk
  | some (Node.file regular _) => insert disk (lexically_normal p) (Node.file regular content)
  | none =>
    if is_directory disk (parent_path (lexically_normal p)) then
      insert disk (lexically_normal p) (Node.file true content)
    else disk

end stdfs

open stdfs

/-! ## The engine -/

inductive FileCopy.result where
  | DestinationIsFile
  | SourceNotFound
  | SourceIsEqualToDestination
  | NoResult
  | Success
  | CopySystemFilesError
  | FileExistsError
  | IOError
  | FileIsSameNameAsDirectory
  | FileCopyInProgress
  | SourceIsSubdirectoryOfDestination
  | ErrorWhenCopying
  | RemovingCopiedFilesError
  | RemovingCopiedFilesSuccess
  | CopyingSkipped
  deriving DecidableEq, Repr

inductive FileCopy.CopyMode where
  | Overwrite
  | Skip
  | Cancel
  deriving DecidableEq, Repr

structure FileCopy.CopyInfo where
  sourcePath : Path
  destinationPath : Path
  res : FileCopy.result
  deriving DecidableEq, Repr

/-- The data members of `class FileCopy` (mutexes left out), with the default
member initialisers of the header. -/
structure FileCopy where
  maxThreadCount : Nat := 8
  bufferSize : Nat := 81920
  copyMode : FileCopy.CopyMode := FileCopy.CopyMode.Skip
  copySystemFiles : Bool := false
  documentCopyInfo : Bool := true
  copyInProgress : Bool := false
  failedDuringCopy : Bool := false
  copyCanceled : Bool := false
  copyInfos : List FileCopy.CopyInfo := []
  deriving DecidableEq, Repr

/-- An engine together with the file system it works on. -/
structure World where
  copier : FileCopy
  disk : FS
  deriving DecidableEq, Repr

namespace FileCopy

def MinBufferSize : Nat := 1024

def MaxBufferSize : Nat := 104857600

def setMaxThreadCount (e : FileCopy) (count : Nat) : FileCopy :=
  if count ≤ 0 ∨ count > 65535 then e
  else if e.copyInProgress then e
  else { e with maxThreadCount := count }

def setCopyMode (e : FileCopy) (mode : CopyMode) : FileCopy :=
  { e with copyMode := mode }

def setCopySystemFiles (e : FileCopy) (copy : Bool) : FileCopy :=
  if e.copyInProgress then e else { e with copySystemFiles := copy }

def setDocumentCopyInfo (e : FileCopy) (document : Bool) : FileCopy :=
  if e.copyInProgress then e else { e with documentCopyInfo := document }

def setBufferSize (e : FileCopy) (size : Nat) : FileCopy :=
  if size < MinBufferSize ∨ size > MaxBufferSize then e
  else if e.copyInProgress then e
  else { e with bufferSize := size }

def clearCopyInfo (e : FileCopy) : FileCopy :=
  if e.copyInProgress then e else { e with copyInfos := [] }

def logCopyInfo (e : FileCopy) (info : CopyInfo) : FileCopy :=
  if !e.documentCopyInfo then e else { e with copyInfos := e.copyInfos ++ [info] }

def cancelCopy (e : FileCopy) : FileCopy :=
  if e.copyInProgress = false then e else { e with copyCanceled := true }

/-! ### Streaming one file -/

/-- The loop of `copy_file`, from its iteration number `i`.  `cancelAt = some k`
places a `cancelCopy()` call of another thread just before the flag check of
iteration `k`.  The result is the engine afterwards and the chunks handed to
`dest.write`, oldest first; `none` means the fuel ran out. -/
def copy_file_loop (bufferSize : Nat) (cancelAt : Option Nat) :
    Nat → Nat → FileCopy → IStream → List (List Byte) → Option (FileCopy × List (List Byte))
  | 0, _, _, _, _ => none
  | fuel + 1, i, e, src, written =>
    if src.good then
      let e1 := if cancelAt = some i then cancelCopy e else e
      if e1.copyCanceled then some (e1, written)
      else
        copy_file_loop bufferSize cancelAt fuel (i + 1) e1 (src.read bufferSize).1
          (written ++ [(src.read bufferSize).2])
    else some (e, written)

/-- Fuel that lets `copy_file_loop` run to its exit whenever the loop of the source
has one: one iteration per byte and per iteration waited for the cancellation,
and two more. -/
def copy_file_fuel (src : IStream) (cancelAt : Option Nat) : Nat :=
  src.rest.length + cancelAt.getD 0 + 2

/-- The input stream as the loop of `copy_file` meets it: `src` is opened on `source`
first, and it is read only after the constructor of `dest` has created or truncated
`destination`, so a source that is the destination file itself reads as empty. -/
def opened_source (disk : FS) (source destination : Path) : IStream :=
  { rest := (ifstream_open (ofstream_write disk destination []) source).rest,
    good := (ifstream_open disk source).good }

/-- Counterpart of `FileCopy::copy_file`; `none` means that the call never returns. -/
def copy_file (w : World) (source destination : Path) (bufferSize : Nat)
    (cancelAt : Option Nat) : Option World :=
  match copy_file_loop bufferSize cancelAt
      (copy_file_fuel (opened_source w.disk source destination) cancelAt) 0 w.copier
      (opened_source w.disk source destination) [] with
  | none => none
  | some (e, written) =>
    some { copier := e, disk := ofstream_write w.disk destination written.flatten }

/-! ### The per-file worker -/

/-- The `try` block that ends `copyFiletoFile` (the lines after `// copy begin`).
`copy_file` works on streams, which report failure in their state and throw no
`filesystem_error`, so the `catch` clause of the source has nothing to catch here. -/
def copyBegin (w : World) (source destination : Path) (cancelAt : Option Nat) : Option World :=
  match copy_file w source destination w.copier.bufferSize cancelAt with
  | none => none
  | some w1 =>
    some { w1 with copier := logCopyInfo w1.copier ⟨source, destination, result.Success⟩ }

/-- Counterpart of `FileCopy::copyFiletoFile`, run as one atomic step.  `cancelAt` is
handed to the streaming loop; `none` means that the worker never returns. -/
def copyFiletoFile (w : World) (source destination : Path) (cancelAt : Option Nat) :
    Option World :=
  if !path_exists w.disk source || is_directory w.disk source then
    some { w with copier :=
      { (logCopyInfo w.copier ⟨source, destination, result.SourceNotFound⟩) with
        failedDuringCopy := true } }
  else if !is_regular_file w.disk source
      && (!w.copier.copySystemFiles || !is_other w.disk source) then
    some { w with copier :=
      { (logCopyInfo w.copier ⟨source, destination, result.CopySystemFilesError⟩) with
        failedDuringCopy := true } }
  else if path_exists w.disk destination then
    if is_directory w.disk destination then
      some { w with copier :=
        { (logCopyInfo w.copier ⟨source, destination, result.FileIsSameNameAsDirectory⟩) with
          failedDuringCopy := true } }
    else if w.copier.copyMode = CopyMode.Skip then
      some { w with copier :=
        { (logCopyInfo w.copier ⟨source, destination, result.CopyingSkipped⟩) with
          failedDuringCopy := true } }
    else if w.copier.copyMode = CopyMode.Cancel then
      some { w with copier :=
        { (logCopyInfo w.copier ⟨source, destination, result.FileExistsError⟩) with
          copyCanceled := true, failedDuringCopy := true } }
    else copyBegin w source destination cancelAt
  else
    match create_directories w.disk (parent_path destination) with
    | none =>
      some { w with copier := logCopyInfo w.copier ⟨source, destination, result.IOError⟩ }
    | some disk => copyBegin { w with disk := disk } source destination cancelAt

/-! ### Rollback -/

/-- One iteration of the loop of `withdrawCopiedFiles`. -/
def withdrawStep (w : World) (info : CopyInfo) : World :=
  if info.res = result.Success && path_exists w.disk info.destinationPath then
    match remove w.disk info.destinationPath with
    | some disk =>
      { copier := logCopyInfo w.copier
          ⟨info.sourcePath, info.destinationPath, result.RemovingCopiedFilesSuccess⟩,
        disk := disk }
    | none =>
      { w with copier := (logCopyInfo w.copier
          ⟨info.sourcePath, info.destinationPath, result.RemovingCopiedFilesError⟩) }
  else w

/-- Counterpart of `FileCopy::withdrawCopiedFiles`.  The loop visits the records that
are in the log when it starts; the records it appends are not `Success` records. -/
def withdrawCopiedFiles (w : World) : World :=
  w.copier.copyInfos.foldl withdrawStep w

/-! ### Worker threads -/

/-- A `std::thread` in the `threads` vector: the arguments of its worker, the
placement of an outside `cancelCopy()` within its streaming loop, whether the
worker body has taken place, and `joinable()`. -/
structure Thread where
  source : Path
  destination : Path
  cancelAt : Option Nat
  finished : Bool
  joinable : Bool
  deriving DecidableEq, Repr

/-- Let the worker of a thread take place, unless it already has. -/
def Thread.run (t : Thread) (w : World) : Option (Thread × World) :=
  if t.finished then some (t, w)
  else
    match copyFiletoFile w t.source t.destination t.cancelAt with
    | none => none
    | some w1 => some ({ t with finished := true }, w1)

/-- Counterpart of `thread.join()`: returns once the worker has finished; `none`
when it never does. -/
def Thread.join (t : Thread) (w : World) : Option (Thread × World) :=
  match t.run w with
  | none => none
  | some (t1, w1) => some ({ t1 with joinable := false }, w1)

/-- The loop `for (auto& thread : threads) if (thread.joinable()) thread.join();`. -/
def joinAll : List Thread → World → Option (List Thread × World)
  | [], w => some ([], w)
  | t :: ts, w =>
    if t.joinable then
      match t.join w with
      | none => none
      | some (t1, w1) =>
        match joinAll ts w1 with
        | none => none
        | some (ts1, w2) => some (t1 :: ts1, w2)
    else
      match joinAll ts w with
      | none => none
      | some (ts1, w1) => some (t :: ts1, w1)

/-- The inner `for` loop of the capacity wait: a joinable thread is joined and
erased from the vector, any other thread stays. -/
def sweep : List Thread → World → Option (List Thread × World)
  | [], w => some ([], w)
  | t :: ts, w =>
    if t.joinable then
      match t.join w with
      | none => none
      | some (_, w1) => sweep ts w1
    else
      match sweep ts w with
      | none => none
      | some (ts1, w1) => some (t :: ts1, w1)

/-- The loop `while (threads.size() >= maxThreadCount)`, with fuel for its
iterations. -/
def waitForCapacity : Nat → List Thread → World → Option (List Thread × World)
  | fuel, threads, w =>
    if threads.length ≥ w.copier.maxThreadCount then
      match fuel with
      | 0 => none
      | fuel1 + 1 =>
        match sweep threads w with
        | none => none
        | some (threads1, w1) => waitForCapacity fuel1 threads1 w1
    else some (threads, w)

/-- Where the events of the other threads fall during a directory run.
* `cancelBefore i`: the caller invokes `cancelCopy()` before the flag check of
  iteration `i` of the dispatch loop;
* `completeBefore i`: the positions in `threads` of the workers that finish before
  that check (the others finish later, at the latest when joined);
* `cancelInWorker i`: for the worker created in iteration `i`, the iteration of its
  streaming loop before whose flag check the caller invokes `cancelCopy()`. -/
structure Schedule where
  cancelBefore : Nat → Bool
  completeBefore : Nat → List Nat
  cancelInWorker : Nat → Option Nat

/-- Let the worker at a position of the vector take place. -/
def runAt : List Thread → Nat → World → Option (List Thread × World)
  | [], _, w => some ([], w)
  | t :: ts, 0, w =>
    match t.run w with
    | none => none
    | some (t1, w1) => some (t1 :: ts, w1)
  | t :: ts, pos + 1, w =>
    match runAt ts pos w with
    | none => none
    | some (ts1, w1) => some (t :: ts1, w1)

/-- Let the workers at the listed positions take place, in that order. -/
def runScheduled : List Nat → List Thread → World → Option (List Thread × World)
  | [], threads, w => some (threads, w)
  | pos :: rest, threads, w =>
    match runAt threads pos w with
    | none => none
    | some (threads1, w1) => runScheduled rest threads1 w1

/-! ### The dispatcher -/

/-- How the dispatch loop was left: by the `return` inside it (`returned = some r`)
or by running out of entries; with the `threads` vector and the world at that
point. -/
structure LoopExit where
  returned : Option result
  threads : List Thread
  world : World
  deriving DecidableEq, Repr

/-- The loop `for (const auto& entry : fs::recursive_directory_iterator(srcPath))`
over the entries still to visit, `i` being the number of the iteration. -/
def dispatchLoop (fuel : Nat) (sched : Schedule) (srcPath destPath : Path) :
    Nat → List Path → List Thread → World → Option LoopExit
  | _, [], threads, w => some { returned := none, threads := threads, world := w }
  | i, entry :: entries, threads, w =>
    match runScheduled (sched.completeBefore i) threads
        (if sched.cancelBefore i then { w with copier := cancelCopy w.copier } else w) with
    | none => none
    | some (threads1, w1) =>
      if w1.copier.copyCanceled then
        match joinAll threads1 w1 with
        | none => none
        | some (threads2, w2) =>
          some { returned := some result.FileExistsError, threads := threads2,
                 world := { (withdrawCopiedFiles w2) with
                   copier := { (withdrawCopiedFiles w2).copier with copyInProgress := false } } }
      else if is_directory w1.disk entry then
        dispatchLoop fuel sched srcPath destPath (i + 1) entries threads1 w1
      else
        match waitForCapacity fuel threads1 w1 with
        | none => none
        | some (threads2, w2) =>
          dispatchLoop fuel sched srcPath destPath (i + 1) entries
            (threads2 ++ [{ source := entry, destination := destPath ++ relative entry srcPath,
                            cancelAt := sched.cancelInWorker i, finished := false,
                            joinable := true }])
            w2

/-- The pre-check loop over `fs::directory_iterator(destPath)`: whether it reaches
its `return`. -/
def preCheck (w : World) (srcPath destPath : Path) : List Path → Bool
  | [] => false
  | entry :: entries =>
    if path_exists w.disk (destPath ++ relative entry srcPath) then
      if w.copier.copyMode = CopyMode.Cancel then true
      else preCheck w srcPath destPath entries
    else preCheck w srcPath destPath entries

/-- How a call of `copy` ends: with a returned result, or with a `filesystem_error`
that no handler catches. -/
inductive CopyExit where
  | returned (r : result) : CopyExit
  | uncaught : CopyExit
  deriving DecidableEq, Repr

/-- Log a record, clear the in-progress flag and return: the common tail of the
validation failures of `copy`. -/
def fail (w : World) (srcPath destPath : Path) (r : result) : Option (CopyExit × World) :=
  some (CopyExit.returned r,
    { w with copier :=
      { (logCopyInfo w.copier ⟨srcPath, destPath, r⟩) with copyInProgress := false } })

/-- The part of `FileCopy::copy` for a source directory, from the comment
`// destination is subdirectory of source` on; `destPath` already ends in the
file name of the source. -/
def copyDirectory (fuel : Nat) (sched : Schedule) (w : World) (srcPath destPath : Path) :
    Option (CopyExit × World) :=
  if is_directory w.disk srcPath
      && (!(relative destPath srcPath).isEmpty
          && !found_at_0 ".." (string (relative destPath srcPath))) then
    fail w srcPath destPath result.SourceIsSubdirectoryOfDestination
  else
    match (if !path_exists w.disk destPath then create_directories w.disk destPath
           else some w.disk) with
    | none => fail w srcPath destPath result.IOError
    | some disk =>
      match directory_iterator disk destPath with
      | none => some (CopyExit.uncaught, { w with disk := disk })
      | some children =>
        if preCheck { w with disk := disk } srcPath destPath children then
          fail { w with disk := disk } srcPath destPath result.FileExistsError
        else
          match dispatchLoop fuel sched srcPath destPath 0
              (recursive_directory_iterator disk srcPath) [] { w with disk := disk } with
          | none => none
          | some out =>
            match out.returned with
            | some r => some (CopyExit.returned r, out.world)
            | none =>
              match joinAll out.threads out.world with
              | none => none
              | some (_, w1) =>
                some (CopyExit.returned
                    (if w1.copier.failedDuringCopy then result.ErrorWhenCopying
                     else result.Success),
                  { w1 with copier := { w1.copier with copyInProgress := false } })

/-- Counterpart of `FileCopy::copy`.  `fuel` bounds the capacity waits; `none` means
that the call never returns. -/
def copy (fuel : Nat) (sched : Schedule) (w : World) (source destination : Path) :
    Option (CopyExit × World) :=
  if w.copier.copyInProgress then some (CopyExit.returned result.FileCopyInProgress, w)
  else
    let w0 : World := { w with copier :=
      { (clearCopyInfo { w.copier with failedDuringCopy := false, copyCanceled := false }) with
        copyInProgress := true } }
    if !path_exists w0.disk source then
      fail w0 source destination result.SourceNotFound
    else if path_exists w0.disk destination && !is_directory w0.disk destination then
      fail w0 source destination result.DestinationIsFile
    else if path_exists w0.disk (destination ++ filename source)
        && equivalent source (destination ++ filename source) then
      fail w0 source (destination ++ filename source) result.SourceIsEqualToDestination
    else if !is_directory w0.disk source then
      match copyFiletoFile w0 source (destination ++ filename source ++ filename source)
          (sched.cancelInWorker 0) with
      | none => none
      | some w1 =>
        some (CopyExit.returned
            (match w1.copier.copyInfos.getLast? with
             | none => result.NoResult
             | some info => info.res),
          { w1 with copier := { w1.copier with copyInProgress := false } })
    else copyDirectory fuel sched w0 source (destination ++ filename source)

/-! ### The configuration, schedules and example worlds used by the theorems -/

/-- The five configuration fields of the engine. -/
def config (e : FileCopy) : Nat × Nat × CopyMode × Bool × Bool :=
  (e.maxThreadCount, e.bufferSize, e.copyMode, e.copySystemFiles, e.documentCopyInfo)

end FileCopy

/-! ## Properties of the streaming loop -/

namespace FileCopy

theorem copy_file_loop_not_good (bufferSize : Nat) (cancelAt : Option Nat) (fuel i : Nat)
    (e : FileCopy) (rest : List Byte) (written : List (List Byte)) :
    copy_file_loop bufferSize cancelAt (fuel + 1) i e { rest := rest, good := false } written
      = some (e, written) := by
  simp [copy_file_loop]

/-- With the flag clear and no cancellation on its way, the loop writes the bytes
that are left, whatever it has written before. -/
theorem copy_file_loop_all (n : Nat) (hn : 1 ≤ n) (e : FileCopy)
    (he : e.copyCanceled = false) :
    ∀ (fuel i : Nat) (rest : List Byte) (written : List (List Byte)),
      rest.length + 2 ≤ fuel →
      ∃ chunks, copy_file_loop n none fuel i e { rest := rest, good := true } written
          = some (e, written ++ chunks) ∧ chunks.flatten = rest := by
  intro fuel
  induction fuel with
  | zero => intro i rest written h; omega
  | succ fuel ih =>
    intro i rest written h
    by_cases hlen : n ≤ rest.length
    · obtain ⟨chunks, hrun, hflat⟩ :=
        ih (i + 1) (rest.drop n) (written ++ [rest.take n]) (by simp; omega)
      refine ⟨rest.take n :: chunks, ?_, ?_⟩
      · simp [copy_file_loop, IStream.read, he, hlen, hrun]
      · simp [hflat]
    · obtain ⟨f, rfl⟩ : ∃ f, fuel = f + 1 := ⟨fuel - 1, by omega⟩
      refine ⟨[rest], ?_, by simp⟩
      simp [copy_file_loop, IStream.read, he, hlen]

theorem find_erase (disk : FS) (q p : Path) :
    find (erase disk q) p = if q = p then none else find disk p := by
  induction disk with
  | nil => simp [erase, find]
  | cons entry rest ih =>
    obtain ⟨key, node⟩ := entry
    unfold erase at ih ⊢
    by_cases hk : key = q
    · subst hk
      simp only [List.filter, ne_eq, not_true_eq_false, decide_False]
      rw [ih]
      by_cases hp : key = p
      · simp [hp]
      · simp [hp, find]
    · simp only [List.filter, ne_eq, hk, not_false_eq_true, decide_True, find]
      rw [ih]
      by_cases hp : key = p
      · subst hp
        simp [Ne.symm hk]
      · simp [hp]

theorem find_insert_other (disk : FS) (q p : Path) (n : Node) (h : q ≠ p) :
    find (stdfs.insert disk q n) p = find disk p := by
  simp [stdfs.insert, find, h, find_erase]

/-- Writing a file changes nothing at any other path. -/
theorem status_ofstream_write_other (disk : FS) (p q : Path) (x : List Byte)
    (h : lexically_normal q ≠ lexically_normal p) :
    status (ofstream_write disk q x) p = status disk p := by
  unfold ofstream_write
  split
  · rfl
  · simp [status, find_insert_other _ _ _ _ h]
  · split
    · simp [status, find_insert_other _ _ _ _ h]
    · rfl

/-- A source file that is not the destination is read with its full content. -/
theorem opened_source_file (disk : FS) (source destination : Path) (regular : Bool)
    (content : List Byte) (hsrc : status disk source = some (Node.file regular content))
    (hdiff : lexically_normal source ≠ lexically_normal destination) :
    opened_source disk source destination = { rest := content, good := true } := by
  have h1 : status (ofstream_write disk destination []) source
      = some (Node.file regular content) := by
    rw [status_ofstream_write_other _ _ _ _ (Ne.symm hdiff)]; exact hsrc
  simp [opened_source, ifstream_open, hsrc, h1]

/-! ## Properties of the worker -/

/-- C1: for every source content and every buffer size of at least one byte, when the
cancellation flag is clear and no cancellation arrives, the read/write loop of
`copy_file` leaves through its end-of-file exit having written chunks whose
concatenation is the source content (the engine is untouched), and `copy_file`,
called on a source file and a destination that is another file, leaves the
destination holding exactly the source bytes. -/
theorem copy_file_writes_source (content : List Byte) (bufferSize : Nat)
    (hbuf : 1 ≤ bufferSize) (e : FileCopy) (hflag : e.copyCanceled = false) :
    (∀ fuel, content.length + 2 ≤ fuel →
      ∃ chunks,
        copy_file_loop bufferSize none fuel 0 e { rest := content, good := true } []
          = some (e, chunks)
        ∧ chunks.flatten = content)
    ∧ (∀ (disk : FS) (source destination : Path) (regular : Bool),
        status disk source = some (Node.file regular content) →
        lexically_normal source ≠ lexically_normal destination →
        copy_file { copier := e, disk := disk } source destination bufferSize none
          = some { copier := e, disk := ofstream_write disk destination content }) := by
  constructor
  · intro fuel hfuel
    obtain ⟨chunks, h1, h2⟩ := copy_file_loop_all bufferSize hbuf e hflag fuel 0 content [] hfuel
    exact ⟨chunks, by simpa using h1, h2⟩
  · intro disk source destination regular hst hdiff
    have hopen : opened_source disk source destination = { rest := content, good := true } :=
      opened_source_file disk source destination regular content hst hdiff
    obtain ⟨chunks, h1, h2⟩ := copy_file_loop_all bufferSize hbuf e hflag
      (copy_file_fuel { rest := content, good := true } none) 0 content []
      (by simp [copy_file_fuel])
    simp only [copy_file, hopen, h1]
    simp [h2]

/-- Witness of C1: a four-byte source and a two-byte buffer, an exact multiple. -/
theorem copy_file_writes_source_witness :
    (∀ fuel, [1, 2, 3, 4].length + 2 ≤ fuel →
      ∃ chunks,
        copy_file_loop 2 none fuel 0 {} { rest := [1, 2, 3, 4], good := true } []
          = some ({}, chunks)
        ∧ chunks.flatten = [1, 2, 3, 4])
    ∧ (∀ (disk : FS) (source destination : Path) (regular : Bool),
        status disk source = some (Node.file regular [1, 2, 3, 4]) →
        lexically_normal source ≠ lexically_normal destination →
        copy_file { copier := {}, disk := disk } source destination 2 none
          = some { copier := {}, disk := ofstream_write disk destination [1, 2, 3, 4] }) :=
  copy_file_writes_source [1, 2, 3, 4] 2 (by decide) {} rfl

/-- C5 (the code departs from the claim): on an engine whose run is in progress with
conflict mode `Skip`, `setCopyMode Cancel` is not rejected: the conflict mode
becomes `Cancel`, so the configuration changes. -/
theorem setCopyMode_during_run :
    (setCopyMode { copyInProgress := true, copyMode := CopyMode.Skip } CopyMode.Cancel).copyMode
        = CopyMode.Cancel
    ∧ config (setCopyMode { copyInProgress := true, copyMode := CopyMode.Skip } CopyMode.Cancel)
        ≠ config { copyInProgress := true, copyMode := CopyMode.Skip } := by
  decide

/-- The four setters that test the in-progress flag leave the configuration alone
during a run. -/
theorem guarded_setters_rejected (e : FileCopy) (h : e.copyInProgress = true)
    (count size : Nat) (copy document : Bool) :
    setMaxThreadCount e count = e ∧ setBufferSize e size = e
      ∧ setCopySystemFiles e copy = e ∧ setDocumentCopyInfo e document = e := by
  simp [setMaxThreadCount, setBufferSize, setCopySystemFiles, setDocumentCopyInfo, h]

end FileCopy

end MyFileCopyLib
